import Mathlib

/-!
Verification development for the `ai_safety_scraper` repository.

The definitions in this file are shallow embeddings, translated from the
Python sources:
  * `scraper.py` — URL predicates (`is_blog_post_url`), the content
    normalizer (`extract_text_content`), the per-page content assemblers,
    and the visited-set / fetch discipline of `scrape_blog_post`;
  * `split_json.py` — `find_largest_array`, the chunking loop and
    `replace_array_in_structure`;
  * `filter_json.py` — `extract_date_from_content` and `filter_post` of
    `filter_anthropic_data`.

Python strings are modelled as Lean `String`s operated on through their
character lists; Python `set` membership state is modelled as a `List String`
with membership; fallible operations return `Option`.
-/

namespace Scraper

/-- Characters Python's `str.strip()` treats as whitespace. -/
def pyWsChar (c : Char) : Bool :=
  c == ' ' || c == '\t' || c == '\n' || c == '\r' || c == '\x0b' || c == '\x0c'

/-- Drop matching characters from the right end of a character list. -/
def dropRightL (p : Char → Bool) (l : List Char) : List Char :=
  (l.reverse.dropWhile p).reverse

/-- Drop matching characters from both ends of a character list. -/
def stripBothL (p : Char → Bool) (l : List Char) : List Char :=
  dropRightL p (l.dropWhile p)

/-- Python `s.strip()`: trim whitespace from both ends. -/
def pyStrip (s : String) : String :=
  ⟨stripBothL pyWsChar s.data⟩

/-- Python `s.rstrip('/')`. -/
def pyRstripSlash (s : String) : String :=
  ⟨dropRightL (· == '/') s.data⟩

/-- Python `s.strip('/')`. -/
def pyStripSlash (s : String) : String :=
  ⟨stripBothL (· == '/') s.data⟩

/-- Does the first list start the second one? -/
def leadsL : List Char → List Char → Bool
  | [], _ => true
  | _ :: _, [] => false
  | a :: as, b :: bs => a == b && leadsL as bs

/-- Substring containment on character lists (`needle` occurs in the list). -/
def hasSubL (needle : List Char) : List Char → Bool
  | [] => needle.isEmpty
  | c :: rest => leadsL needle (c :: rest) || hasSubL needle rest

/-- Python `needle in hay` for strings. -/
def pyIn (needle hay : String) : Bool :=
  hasSubL needle.data hay.data

/-- Python `s.startswith(pre)`. -/
def pyStartsWith (s pre : String) : Bool :=
  leadsL pre.data s.data

/-- Python `s.endswith(suf)`. -/
def pyEndsWith (s suf : String) : Bool :=
  leadsL suf.data.reverse s.data.reverse

/-- Fuelled core of `str.replace(pat, '')` (every occurrence removed). -/
def replaceEmptyL : Nat → List Char → List Char → List Char
  | 0, _, l => l
  | _ + 1, _, [] => []
  | fuel + 1, pat, c :: rest =>
    if !pat.isEmpty && leadsL pat (c :: rest) then
      replaceEmptyL fuel pat ((c :: rest).drop pat.length)
    else
      c :: replaceEmptyL fuel pat rest

/-- Python `s.replace(pat, '')`: delete every occurrence of `pat` in `s`. -/
def pyReplaceEmpty (s pat : String) : String :=
  ⟨replaceEmptyL s.data.length pat.data s.data⟩

/-! ## URL predicates (`is_blog_post_url`), from `scraper.py` -/

def metrBaseUrl : String := "https://metr.org"

/-- Embedding of `MetrScraper.is_blog_post_url` (scraper.py, lines 146–152). -/
def metrIsBlogPostUrl (url : String) : Bool :=
  if pyRstripSlash url == metrBaseUrl ++ "/blog" then false
  else if pyIn "/page/" url || pyIn "/blog/?" url || pyIn "/blog/#" url
      || pyIn "/blog/$" url then false
  else pyIn "/blog/" url

def aisiBaseUrl : String := "https://www.aisi.gov.uk"

/-- Embedding of `AisiScraper.is_blog_post_url` (scraper.py, lines 318–320). -/
def aisiIsBlogPostUrl (url : String) : Bool :=
  pyIn "/work/" url && !(pyEndsWith (pyRstripSlash url) "/work")

def anthropicBaseUrl : String := "https://www.anthropic.com"

/-- Embedding of `AnthropicScraper.is_blog_post_url` (scraper.py, lines 1962–1969). -/
def anthropicIsBlogPostUrl (url : String) : Bool :=
  if !(pyStartsWith url anthropicBaseUrl) then false
  else
    let path := pyStripSlash (pyReplaceEmpty url anthropicBaseUrl)
    if path == "research" || path == "news" then false
    else pyStartsWith path "research/" || pyStartsWith path "news/"

/-! ## Document tree (parsed HTML), text extraction and traversal -/

/-- A parsed document-tree node: either a text run (`NavigableString`) or an
element with a tag name, attributes and ordered children. -/
inductive Node where
  | text : String → Node
  | elem : String → List (String × String) → List Node → Node

mutual
/-- The raw text runs of a node's subtree, in document order. -/
def textFrags : Node → List String
  | .text s => [s]
  | .elem _ _ cs => textFragsList cs
def textFragsList : List Node → List String
  | [] => []
  | c :: cs => textFrags c ++ textFragsList cs
end

/-- BeautifulSoup `element.get_text(strip=True)`: each text run is trimmed,
empty runs are dropped, and the remainder is concatenated with no separator. -/
def pyGetTextStrip (n : Node) : String :=
  String.join (((textFrags n).map pyStrip).filter (· != ""))

mutual
/-- All descendant nodes of a node (excluding itself), in document order. -/
def descendants : Node → List Node
  | .text _ => []
  | .elem _ _ cs => descendantsList cs
def descendantsList : List Node → List Node
  | [] => []
  | c :: cs => c :: descendants c ++ descendantsList cs
end

/-- Is the node an element whose tag is in the given list? -/
def hasTagIn (tags : List String) : Node → Bool
  | .text _ => false
  | .elem t _ _ => tags.contains t

/-- BeautifulSoup `element.find_all([tags])`: matching descendant elements
in document order. -/
def findAll (tags : List String) (n : Node) : List Node :=
  (descendants n).filter (hasTagIn tags)

/-- BeautifulSoup `element.get(key)`: first attribute value with this name. -/
def getAttr (key : String) : Node → Option String
  | .text _ => none
  | .elem _ attrs _ => (attrs.find? (fun kv => kv.1 == key)).map (·.2)

/-- Does the subtree below the node contain an `<a>` element
(BeautifulSoup `element.find('a')` used as a boolean)? -/
def hasLinkBelow (n : Node) : Bool :=
  (descendants n).any (hasTagIn ["a"])

/-! ## Model of `urllib.parse.urljoin`

`urljoin` is library code external to the repository.  Modelled from its
documented RFC 3986 behaviour, restricted to hierarchical `scheme://host/path`
URLs (the shapes the scraper feeds it): an absolute reference wins, a
reference starting with `/` replaces the base path, and a relative reference
is merged with the base path directory followed by dot-segment removal. -/

/-- Index of the first occurrence of `needle` in `hay`, if any. -/
def subIdx (needle : List Char) : List Char → Option Nat
  | [] => if needle.isEmpty then some 0 else none
  | c :: rest =>
    if leadsL needle (c :: rest) then some 0
    else (subIdx needle rest).map (· + 1)

/-- Split a character list on a separator character. -/
def splitCharL (sep : Char) : List Char → List (List Char)
  | [] => [[]]
  | x :: rest =>
    if x == sep then [] :: splitCharL sep rest
    else
      match splitCharL sep rest with
      | [] => [[x]]
      | s :: ss => (x :: s) :: ss

/-- Join character-list segments with a separator character. -/
def joinSep (sep : Char) : List (List Char) → List Char
  | [] => []
  | [s] => s
  | s :: rest => s ++ sep :: joinSep sep rest

/-- RFC 3986 `remove_dot_segments` on a segment list, with an output stack.
A final `.` or `..` leaves a trailing empty segment (trailing slash). -/
def rmDotSegs (out : List (List Char)) : List (List Char) → List (List Char)
  | [] => out
  | [s] =>
    if s == ".".data then out ++ [[]]
    else if s == "..".data then out.dropLast ++ [[]]
    else out ++ [s]
  | s :: rest =>
    if s == ".".data then rmDotSegs out rest
    else if s == "..".data then rmDotSegs out.dropLast rest
    else rmDotSegs (out ++ [s]) rest

/-- Normalize an absolute path (leading `/`) by removing dot segments. -/
def normAbsPath (p : List Char) : List Char :=
  '/' :: joinSep '/' (rmDotSegs [] (splitCharL '/' (p.drop 1)))

/-- The base path's directory: everything up to and including the last `/`;
`/` when the path has no slash. -/
def dirOfPath (p : List Char) : List Char :=
  let d := (p.reverse.dropWhile (· != '/')).reverse
  if d.isEmpty then "/".data else d

/-- Model of `urllib.parse.urljoin base href` for hierarchical URLs. -/
def urljoin (base href : String) : String :=
  let hd := href.data
  let bd := base.data
  if href == "" then base
  else if hasSubL "://".data hd then href
  else
    match subIdx "://".data bd with
    | none => href
    | some i =>
      let scheme := bd.take i
      let after := bd.drop (i + 3)
      let netloc := after.takeWhile (· != '/')
      let bpath := after.dropWhile (· != '/')
      if leadsL "//".data hd then ⟨scheme ++ ':' :: hd⟩
      else if leadsL "/".data hd then
        ⟨scheme ++ "://".data ++ netloc ++ normAbsPath hd⟩
      else
        ⟨scheme ++ "://".data ++ netloc ++ normAbsPath (dirOfPath bpath ++ hd)⟩

/-! ## Content normalizer: `BaseScraper.extract_text_content`
(scraper.py, lines 53–100) -/

/-- Python `text.replace('\n', '\n> ')` for the blockquote rule. -/
def quoteNewlines (s : String) : String :=
  ⟨s.data.flatMap (fun c => if c == '\n' then "\n> ".data else [c])⟩

mutual
/-- Embedding of `BaseScraper.extract_text_content(element, with_links)`.  Returns `none`
exactly where the Python function falls off the end of its branch chain and
implicitly returns `None` (a blockquote / pre / code element whose stripped
text is empty).  A bare text node cannot reach this function in the Python
callers; it is rendered as its stripped text. -/
def extractTextContent (base : String) (withLinks : Bool) : Node → Option String
  | .text s => some (pyStrip s)
  | .elem tag attrs cs =>
    let el : Node := .elem tag attrs cs
    if tag == "table" then
      some (String.intercalate "\n"
        ((findAll ["tr"] el).map (fun row =>
          String.intercalate "\t" ((findAll ["td", "th"] row).map pyGetTextStrip))))
    else if tag == "ul" || tag == "ol" then
      some (String.intercalate "\n"
        (((findAll ["li"] el).map pyGetTextStrip).filterMap
          (fun t => if t != "" then some ("- " ++ t) else none)))
    else if tag == "blockquote" then
      let t := pyGetTextStrip el
      if t != "" then some ("> " ++ quoteNewlines t) else none
    else if tag == "pre" || tag == "code" then
      let t := pyGetTextStrip el
      if t != "" then some ("```\n" ++ t ++ "\n```") else none
    else if tag == "a" && withLinks then
      let t := pyGetTextStrip el
      match getAttr "href" el with
      | some href =>
        if href != "" && t != "" then
          some ("[" ++ t ++ "](" ++ urljoin base href ++ ")")
        else some t
      | none => some t
    else
      if withLinks && hasLinkBelow el then
        some (String.intercalate " " (linkParts base cs))
      else
        some (pyGetTextStrip el)
/-- The `parts` list of the nested-link branch: direct children in order,
keeping non-empty trimmed text runs and recursively rendered `<a>` children
(the recursive call always returns a string for an `<a>` element, so the
`getD` default is never used). -/
def linkParts (base : String) : List Node → List String
  | [] => []
  | .text s :: rest =>
    let t := pyStrip s
    if t != "" then t :: linkParts base rest else linkParts base rest
  | .elem "a" attrs gcs :: rest =>
    (extractTextContent base true (.elem "a" attrs gcs)).getD "" :: linkParts base rest
  | .elem _ _ _ :: rest => linkParts base rest
end

/-! ## Per-page content assembly (MetrScraper), from `scraper.py` -/

/-- Split a character list into maximal whitespace-free runs. -/
def wsFieldsAux : List Char → List Char → List String
  | [], cur => if cur.isEmpty then [] else [⟨cur.reverse⟩]
  | c :: rest, cur =>
    if pyWsChar c then
      if cur.isEmpty then wsFieldsAux rest []
      else ⟨cur.reverse⟩ :: wsFieldsAux rest []
    else wsFieldsAux rest (c :: cur)

/-- The element's class tokens (BeautifulSoup turns the `class` attribute
into a whitespace-split token list; absent attribute gives no tokens). -/
def classList (n : Node) : List String :=
  match getAttr "class" n with
  | none => []
  | some v => wsFieldsAux v.data []

/-- The class names `MetrScraper.scrape_blog_post` skips (line 275). -/
def metrExcludedClasses : List String :=
  ["post-header", "post-categories", "post-authors", "post-date", "caption",
   "hide-over-950", "show-over-950", "breakout-wider"]

/-- The `continue` test of the Metr blog-post content loop (lines 271–277). -/
def metrClassSkip (n : Node) : Bool :=
  (classList n).any (metrExcludedClasses.contains ·)

/-- The structural tags the Metr blog-post content loop iterates (line 270). -/
def metrBlogTags : List String :=
  ["p", "ul", "ol", "blockquote", "pre", "code", "table", "div"]

/-- One iteration of the Metr blog-post content loop (lines 270–281):
skip class-excluded elements, render, keep only non-empty fragments that
are not already in the accumulated list. -/
def metrBlogFragsStep (base : String) (acc : List String) (e : Node) : List String :=
  if metrClassSkip e then acc
  else
    match extractTextContent base true e with
    | none => acc
    | some t => if t != "" && !(acc.contains t) then acc ++ [t] else acc

/-- The `content_elements` list built by `MetrScraper.scrape_blog_post`
(lines 269–281), starting from a fresh (page-scoped) empty list. -/
def metrBlogFrags (base : String) (els : List Node) : List String :=
  els.foldl (metrBlogFragsStep base) []

/-- Embedding of the `MetrScraper.scrape_blog_post` content assembly (lines 269–283). -/
def metrBlogContent (base : String) (mainContent : Node) : String :=
  String.intercalate "\n\n" (metrBlogFrags base (findAll metrBlogTags mainContent))

/-- The rendered text the Metr blog loop considers for an element: `none`
for class-excluded elements and for elements whose rendering is `None`. -/
def metrRenderOf (base : String) (e : Node) : Option String :=
  if metrClassSkip e then none else extractTextContent base true e

/-- The structural tags the Metr home/about content loop iterates (line 174). -/
def metrHomeTags : List String :=
  ["p", "ul", "ol", "blockquote", "pre", "code", "table"]

/-- Embedding of the `MetrScraper.scrape_home_page` content assembly (lines 171–176): every
rendered element is appended, with no empty-text or duplicate suppression.
`none` models the `TypeError` the Python `'\n\n'.join` raises when
`extract_text_content` returned `None` for some element. -/
def metrHomeContent (base : String) (mainContent : Node) : Option String :=
  let rendered := (findAll metrHomeTags mainContent).map (extractTextContent base true)
  if rendered.all (·.isSome) then
    some (String.intercalate "\n\n" (rendered.map (·.getD "")))
  else none

/-! ## Crawl-session state and `scrape_blog_post` fetch discipline

The visited set `self.scraped_urls` is modelled as a `List String` with
membership; the fetch layer and the page-specific extraction are parameters
(`getPage` models `get_page` returning a parsed page or `None`; `extractRec`
models everything the method does with the fetched page).  Each step returns
the new visited set, whether a fetch was issued, and the returned record. -/

/-- Embedding of `MetrScraper.scrape_blog_post` (lines 206–217): visited check, then
`is_blog_post_url` check, then mark visited, then fetch. -/
def metrScrapeBlogPost {Page Rec : Type} (getPage : String → Option Page)
    (extractRec : String → Page → Option Rec) (visited : List String)
    (url : String) : List String × Bool × Option Rec :=
  if visited.contains url then (visited, false, none)
  else if !metrIsBlogPostUrl url then (visited, false, none)
  else
    match getPage url with
    | none => (url :: visited, true, none)
    | some pg => (url :: visited, true, extractRec url pg)

/-- Embedding of `AnthropicScraper.scrape_blog_post` (lines 2005–2015): visited check,
then mark visited, then fetch — with no `is_blog_post_url` check. -/
def anthropicScrapeBlogPost {Page Rec : Type} (getPage : String → Option Page)
    (extractRec : String → Page → Option Rec) (visited : List String)
    (url : String) : List String × Bool × Option Rec :=
  if visited.contains url then (visited, false, none)
  else
    match getPage url with
    | none => (url :: visited, true, none)
    | some pg => (url :: visited, true, extractRec url pg)

/-- Embedding of `CSERScraper.scrape_blog_post` (lines 2614–2623): same discipline as the
Anthropic one — visited check, mark, fetch; no `is_blog_post_url` check. -/
def cserScrapeBlogPost {Page Rec : Type} (getPage : String → Option Page)
    (extractRec : String → Page → Option Rec) (visited : List String)
    (url : String) : List String × Bool × Option Rec :=
  if visited.contains url then (visited, false, none)
  else
    match getPage url with
    | none => (url :: visited, true, none)
    | some pg => (url :: visited, true, extractRec url pg)

/-- Embedding of `AisiScraper.scrape_article` (lines 512–521): visited check, mark,
fetch; no `is_blog_post_url` check. -/
def aisiScrapeArticle {Page Rec : Type} (getPage : String → Option Page)
    (extractRec : String → Page → Option Rec) (visited : List String)
    (url : String) : List String × Bool × Option Rec :=
  if visited.contains url then (visited, false, none)
  else
    match getPage url with
    | none => (url :: visited, true, none)
    | some pg => (url :: visited, true, extractRec url pg)

/-- Run `MetrScraper.scrape_blog_post` over a sequence of discovered URLs
(as `scrape_blog_posts` does), returning the final visited set and the log
of URLs for which a fetch was actually issued, in order. -/
def metrRun {Page Rec : Type} (getPage : String → Option Page)
    (extractRec : String → Page → Option Rec) (visited : List String) :
    List String → List String × List String
  | [] => (visited, [])
  | u :: us =>
    let step := metrScrapeBlogPost getPage extractRec visited u
    let rest := metrRun getPage extractRec step.1 us
    (rest.1, (if step.2.1 then [u] else []) ++ rest.2)

/-! ## `split_json.py`: JSON values, `find_largest_array`, chunking,
`replace_array_in_structure` -/

inductive Json where
  | null
  | bool (b : Bool)
  | num (n : Int)
  | str (s : String)
  | arr (xs : List Json)
  | obj (fs : List (String × Json))

/-- The comparison of the `find_largest_array` update
(`current_max is None or len(obj) > len(current_max)`). -/
def isLongerThan (xs : List Json) : Option (List Json) → Bool
  | none => true
  | some cur => cur.length < xs.length

mutual
/-- Embedding of `find_largest_array(obj, current_max)` (split_json.py, lines 11–18):
a list is itself a candidate (its elements are not searched); a dict's
values are searched in order; anything else leaves the accumulator. -/
def findLargestArray : Json → Option (List Json) → Option (List Json)
  | .arr xs, cur => if isLongerThan xs cur then some xs else cur
  | .obj fs, cur => findLargestArrayFields fs cur
  | .null, cur => cur
  | .bool _, cur => cur
  | .num _, cur => cur
  | .str _, cur => cur
def findLargestArrayFields : List (String × Json) → Option (List Json) → Option (List Json)
  | [], cur => cur
  | (_, v) :: rest, cur => findLargestArrayFields rest (findLargestArray v cur)
end

mutual
/-- The arrays `find_largest_array` actually visits, in visiting order:
a list itself, and recursively the values of a dict — not list elements. -/
def dictArrays : Json → List (List Json)
  | .arr xs => [xs]
  | .obj fs => dictArraysFields fs
  | .null => []
  | .bool _ => []
  | .num _ => []
  | .str _ => []
def dictArraysFields : List (String × Json) → List (List Json)
  | [] => []
  | (_, v) :: rest => dictArrays v ++ dictArraysFields rest
end

/-- One update of the `find_largest_array` accumulator. -/
def flaStep (cur : Option (List Json)) (xs : List Json) : Option (List Json) :=
  if isLongerThan xs cur then some xs else cur

mutual
/-- Structural equality on JSON values. -/
def jsonBeq : Json → Json → Bool
  | .null, .null => true
  | .bool a, .bool b => a == b
  | .num a, .num b => a == b
  | .str a, .str b => a == b
  | .arr xs, .arr ys => jsonBeqList xs ys
  | .obj fs, .obj gs => jsonBeqFields fs gs
  | _, _ => false
def jsonBeqList : List Json → List Json → Bool
  | [], [] => true
  | x :: xs, y :: ys => jsonBeq x y && jsonBeqList xs ys
  | _, _ => false
def jsonBeqFields : List (String × Json) → List (String × Json) → Bool
  | [], [] => true
  | (k, v) :: fs, (l, w) :: gs => k == l && jsonBeq v w && jsonBeqFields fs gs
  | _, _ => false
end

mutual
/-- Embedding of `replace_array_in_structure(obj, new_array)` (split_json.py,
lines 29–36).  The Python test `obj is largest_array` is object identity;
it is modelled as structural equality, which coincides with identity on the
occurrence `find_largest_array` returned. -/
def replaceArrayInStructure (target new : List Json) : Json → Json
  | .arr xs =>
    if jsonBeqList xs target then .arr new
    else .arr (replaceArrayList target new xs)
  | .obj fs => .obj (replaceArrayFields target new fs)
  | .null => .null
  | .bool b => .bool b
  | .num n => .num n
  | .str s => .str s
def replaceArrayList (target new : List Json) : List Json → List Json
  | [] => []
  | x :: xs => replaceArrayInStructure target new x :: replaceArrayList target new xs
def replaceArrayFields (target new : List Json) : List (String × Json) → List (String × Json)
  | [] => []
  | (k, v) :: fs => (k, replaceArrayInStructure target new v) :: replaceArrayFields target new fs
end

mutual
/-- Agreement of two JSON values everywhere outside occurrences of the
target array: at an occurrence of `.arr target` in the first value, the
second value may hold any array; everywhere else the values must agree
structurally. -/
def sameOutside (target : List Json) : Json → Json → Bool
  | .arr xs, j2 =>
    if jsonBeqList xs target then
      match j2 with
      | .arr _ => true
      | _ => false
    else
      match j2 with
      | .arr ys => sameOutsideList target xs ys
      | _ => false
  | .obj fs, .obj gs => sameOutsideFields target fs gs
  | .obj _, _ => false
  | .null, .null => true
  | .null, _ => false
  | .bool a, .bool b => a == b
  | .bool _, _ => false
  | .num a, .num b => a == b
  | .num _, _ => false
  | .str a, .str b => a == b
  | .str _, _ => false
def sameOutsideList (target : List Json) : List Json → List Json → Bool
  | [], [] => true
  | x :: xs, y :: ys => sameOutside target x y && sameOutsideList target xs ys
  | _, _ => false
def sameOutsideFields (target : List Json) : List (String × Json) → List (String × Json) → Bool
  | [], [] => true
  | (k, v) :: fs, (l, w) :: gs => k == l && sameOutside target v w && sameOutsideFields target fs gs
  | _, _ => false
end

/-- The chunk start indices the splitting loop actually processes:
`i` ranges over `range(num_parts)` and the loop breaks at the first
`start_idx >= total`. -/
def chunkIdxs (total parts ipp : Nat) : List Nat :=
  (List.range parts).takeWhile (fun i => i * ipp < total)

/-- The contiguous slices `largest_array[start_idx:end_idx]` produced by
`split_json_file` (split_json.py, lines 24–48): `items_per_part` is
`math.ceil(total / num_parts)` and each slice is
`arr[i*ipp : min((i+1)*ipp, total)]`. -/
def pySplitChunks (arr : List Json) (numParts : Nat) : List (List Json) :=
  let ipp := (arr.length + numParts - 1) / numParts
  (chunkIdxs arr.length numParts ipp).map (fun i => (arr.drop (i * ipp)).take ipp)

/-- The sequence of part documents `split_json_file` writes: the source
document with the largest array replaced by each chunk in turn. -/
def splitJsonParts (data : Json) (numParts : Nat) : Option (List Json) :=
  (findLargestArray data none).map (fun target =>
    (pySplitChunks target numParts).map (fun c => replaceArrayInStructure target c data))

/-! ## `filter_json.py`: date extraction and the Anthropic post filter -/

/-- The month alternatives of the regex
`(?:Jan|Feb|Mar|Apr|May|Jun|Jul|Aug|Sep|Oct|Nov|Dec)`, with month numbers. -/
def monthAbbrevs : List (String × Nat) :=
  [("Jan", 1), ("Feb", 2), ("Mar", 3), ("Apr", 4), ("May", 5), ("Jun", 6),
   ("Jul", 7), ("Aug", 8), ("Sep", 9), ("Oct", 10), ("Nov", 11), ("Dec", 12)]

/-- Match one month abbreviation at the head of the input. -/
def matchMonth (cs : List Char) : Option (Nat × List Char) :=
  (monthAbbrevs.find? (fun ab => leadsL ab.1.data cs)).map
    (fun ab => (ab.2, cs.drop 3))

/-- Match `\s+` (at least one whitespace character) at the head. -/
def matchWs1 (cs : List Char) : Option (List Char) :=
  match cs with
  | c :: rest => if pyWsChar c then some (rest.dropWhile pyWsChar) else none
  | [] => none

/-- Digit value of a character, if it is an ASCII digit. -/
def digitVal (c : Char) : Option Nat :=
  if c.isDigit then some (c.toNat - '0'.toNat) else none

/-- Match `,\s+\d{4}` at the head, returning the year. -/
def matchCommaYear (cs : List Char) : Option Nat :=
  match cs with
  | ',' :: rest =>
    match matchWs1 rest with
    | some r2 =>
      match r2 with
      | a :: b :: c :: d :: _ =>
        match digitVal a, digitVal b, digitVal c, digitVal d with
        | some x, some y, some z, some w => some (x * 1000 + y * 100 + z * 10 + w)
        | _, _, _, _ => none
      | _ => none
    | none => none
  | _ => none

/-- Match the whole pattern
`(?:Jan|…|Dec)\s+\d{1,2},\s+\d{4}` at the head of the input, returning
month, day and year.  `\d{1,2}` is greedy: two digits are consumed when the
following character allows the rest of the pattern to match, else one. -/
def matchDateAt (cs : List Char) : Option (Nat × Nat × Nat) :=
  match matchMonth cs with
  | none => none
  | some (m, r1) =>
    match matchWs1 r1 with
    | none => none
    | some r2 =>
      match r2 with
      | a :: rest =>
        match digitVal a with
        | none => none
        | some d1 =>
          match rest with
          | b :: rest2 =>
            match digitVal b with
            | some d2 => (matchCommaYear rest2).map (fun y => (m, d1 * 10 + d2, y))
            | none => (matchCommaYear rest).map (fun y => (m, d1, y))
          | [] => none
      | [] => none

/-- Model of `re.search` for the date pattern: leftmost match wins. -/
def searchDate : List Char → Option (Nat × Nat × Nat)
  | [] => none
  | c :: rest =>
    match matchDateAt (c :: rest) with
    | some d => some d
    | none => searchDate rest

def isLeapYear (y : Nat) : Bool :=
  y % 4 == 0 && (y % 100 != 0 || y % 400 == 0)

def daysInMonth (y m : Nat) : Nat :=
  if m == 2 then (if isLeapYear y then 29 else 28)
  else if m == 4 || m == 6 || m == 9 || m == 11 then 30
  else 31

/-- Embedding of `extract_date_from_content` (filter_json.py, lines 8–20): first regex
match in the content, validated by `datetime.strptime` (day in range for
the month, year at least 1; invalid dates give `None`).  Result is
`(year, month, day)`. -/
def extractDateFromContent (content : String) : Option (Nat × Nat × Nat) :=
  match searchDate content.data with
  | none => none
  | some (m, d, y) =>
    if 1 ≤ y && 1 ≤ d && d ≤ daysInMonth y m then some (y, m, d) else none

/-- Python `datetime` comparison on `(year, month, day)` triples. -/
def dateLe (a b : Nat × Nat × Nat) : Bool :=
  a.1 < b.1 || (a.1 == b.1 && (a.2.1 < b.2.1 || (a.2.1 == b.2.1 && a.2.2 ≤ b.2.2)))

/-- The cutoff `datetime(2024, 6, 1)` of `filter_anthropic_data`. -/
def anthropicCutoff : Nat × Nat × Nat := (2024, 6, 1)

/-- Embedding of `filter_post` of `filter_anthropic_data` (filter_json.py, lines 23–32):
drop when `content` is missing or empty, drop when no date is recognized,
otherwise keep exactly when the recognized date is on/after the cutoff. -/
def filterPost (content : Option String) : Bool :=
  match content with
  | none => false
  | some c =>
    if c == "" then false
    else
      match extractDateFromContent c with
      | none => false
      | some d => dateLe anthropicCutoff d

/-! ## Concrete documents and inputs used in counterexamples and witnesses -/

/-- A content container with two paragraphs rendering to the same text. -/
def twoEqualParas : Node :=
  .elem "div" [("class", "content")]
    [.elem "p" [] [.text "A"], .elem "p" [] [.text "A"]]

/-- A five-element array. -/
def big5 : List Json := [.num 1, .num 2, .num 3, .num 4, .num 5]

/-- A document whose longest array (`big5`, 5 elements) is nested inside an
element of another (one-element) list. -/
def nestedArrayDoc : Json := .obj [("a", .arr [Json.arr big5])]

/-- A thirteen-element array. -/
def thirteen : List Json := (List.range 13).map (fun i => Json.num i)

/-- A document whose largest array has 13 items. -/
def doc13 : Json := .obj [("posts", .arr thirteen), ("meta", .str "x")]

/-! # Theorems for the claims -/

/-- Claim C10: The content normalizer is not total over strings: a blockquote,
pre, or code element whose text content strips to the empty string makes
`extract_text_content` fall off its branch chain and return `None`.  Callers
must therefore guard its result before concatenation. -/
theorem extractTextContent_returns_none_on_empty_quote :
    extractTextContent "https://metr.org" true (.elem "blockquote" [] []) = none ∧
    extractTextContent "https://metr.org" true (.elem "pre" [] [.text "   "]) = none ∧
    extractTextContent "https://metr.org" true (.elem "code" [] [.text ""]) = none :=
  ⟨rfl, rfl, rfl⟩

/-- Claim C2, counterexample: The claim says every adapter's
`scrapeContentPage` performs no work on a URL rejected by `isContentUrl`.
The Anthropic adapter's `scrape_blog_post` never consults
`is_blog_post_url`: the listing URL `https://www.anthropic.com/research` is
rejected by the predicate, yet an unvisited call on it issues a fetch. -/
theorem anthropic_fetches_rejected_url :
    anthropicIsBlogPostUrl "https://www.anthropic.com/research" = false ∧
    (anthropicScrapeBlogPost (fun _ => (none : Option Unit))
      (fun _ _ => (none : Option Unit)) []
      "https://www.anthropic.com/research").2.1 = true :=
  ⟨rfl, rfl⟩

/-- Claim C2, amended: Every cited adapter returns null and performs no work
(no marking, no fetch) when the URL is already in the session's visited set.
Only the Metr adapter additionally returns null and performs no work when
`isContentUrl` rejects the URL; the Anthropic and CSER adapters mark visited
and fetch any unvisited URL without consulting `isContentUrl`.  When the
checks pass, the URL is marked visited and a fetch is issued. -/
theorem scrapeContentPage_guards {Page Rec : Type} (g : String → Option Page)
    (e : String → Page → Option Rec) (visited : List String) (url : String) :
    (visited.contains url = true →
      metrScrapeBlogPost g e visited url = (visited, false, none) ∧
      anthropicScrapeBlogPost g e visited url = (visited, false, none) ∧
      cserScrapeBlogPost g e visited url = (visited, false, none)) ∧
    (visited.contains url = false → metrIsBlogPostUrl url = false →
      metrScrapeBlogPost g e visited url = (visited, false, none)) ∧
    (visited.contains url = false → metrIsBlogPostUrl url = true →
      (metrScrapeBlogPost g e visited url).1 = url :: visited ∧
      (metrScrapeBlogPost g e visited url).2.1 = true) ∧
    (visited.contains url = false →
      (anthropicScrapeBlogPost g e visited url).1 = url :: visited ∧
      (anthropicScrapeBlogPost g e visited url).2.1 = true ∧
      (cserScrapeBlogPost g e visited url).1 = url :: visited ∧
      (cserScrapeBlogPost g e visited url).2.1 = true) := by
  refine ⟨fun hv => ?_, fun hv hb => ?_, fun hv hb => ?_, fun hv => ?_⟩
  · have h : url ∈ visited := by simpa using hv
    cases hg : g url <;>
      simp [metrScrapeBlogPost, anthropicScrapeBlogPost, cserScrapeBlogPost,
        h, hg]
  · have h : url ∉ visited := by simpa using hv
    cases hg : g url <;> simp [metrScrapeBlogPost, h, hb, hg]
  · have h : url ∉ visited := by simpa using hv
    cases hg : g url <;> simp [metrScrapeBlogPost, h, hb, hg]
  · have h : url ∉ visited := by simpa using hv
    cases hg : g url <;>
      simp [anthropicScrapeBlogPost, cserScrapeBlogPost, h, hg]

/-- Claim C2, witness: A concrete instance of the amended guarantee: a call
on an already-visited URL, with a fetch layer that would fail, returns null
and leaves the visited set unchanged. -/
theorem scrapeContentPage_guards_witness :
    metrScrapeBlogPost (fun _ => (none : Option Unit))
      (fun _ _ => (none : Option Unit)) ["https://metr.org/blog/a"]
      "https://metr.org/blog/a" = (["https://metr.org/blog/a"], false, none) :=
  ((scrapeContentPage_guards _ _ _ _).1 (by decide)).1

/-- Each `MetrScraper.scrape_blog_post` call either issues no fetch and
leaves the visited set unchanged, or fetches an unvisited URL and adds it. -/
theorem metrStep_cases {Page Rec : Type} (g : String → Option Page)
    (e : String → Page → Option Rec) (visited : List String) (url : String) :
    ((metrScrapeBlogPost g e visited url).2.1 = false ∧
      (metrScrapeBlogPost g e visited url).1 = visited) ∨
    ((metrScrapeBlogPost g e visited url).2.1 = true ∧ url ∉ visited ∧
      (metrScrapeBlogPost g e visited url).1 = url :: visited) := by
  by_cases hc : visited.contains url = true
  · left
    have hm : url ∈ visited := by simpa using hc
    simp [metrScrapeBlogPost, hc, hm]
  · have hc' : visited.contains url = false := by simpa using hc
    have hm : url ∉ visited := by simpa using hc'
    by_cases hb : metrIsBlogPostUrl url = true
    · right
      cases hg : g url <;> simp [metrScrapeBlogPost, hc', hb, hg, hm]
    · left
      have hb' : metrIsBlogPostUrl url = false := by simpa using hb
      simp [metrScrapeBlogPost, hc', hb']

/-- Invariant of a Metr crawl run: the fetch log has no duplicates, and no
URL of the starting visited set ever appears in it. -/
theorem metrRun_invariant {Page Rec : Type} (g : String → Option Page)
    (e : String → Page → Option Rec) :
    ∀ (urls visited : List String),
      (metrRun g e visited urls).2.Nodup ∧
      ∀ u ∈ visited, u ∉ (metrRun g e visited urls).2 := by
  intro urls
  induction urls with
  | nil => intro visited; simp [metrRun]
  | cons u us ih =>
    intro visited
    rcases metrStep_cases g e visited u with ⟨hf, hv⟩ | ⟨hf, hmem, hv⟩
    · simpa [metrRun, hf, hv] using ih visited
    · have h := ih (u :: visited)
      constructor
      · have hu : u ∉ (metrRun g e (u :: visited) us).2 := h.2 u (by simp)
        simp [metrRun, hf, hv, List.nodup_cons, hu, h.1]
      · intro w hw
        have h1 : w ≠ u := fun hEq => hmem (hEq ▸ hw)
        have h2 : w ∉ (metrRun g e (u :: visited) us).2 := h.2 w (by simp [hw])
        simp [metrRun, hf, hv, h1, h2]

/-- Claim C1: Within one crawl session, running `scrape_blog_post` over any
sequence of discovered URLs (with duplicates allowed) fetches each distinct
URL at most once as a content page, and never fetches a URL that was
already in the session's visited set. -/
theorem metr_at_most_once_fetch {Page Rec : Type} (g : String → Option Page)
    (e : String → Page → Option Rec) (visited urls : List String) :
    (∀ u, (metrRun g e visited urls).2.count u ≤ 1) ∧
    (∀ u ∈ visited, u ∉ (metrRun g e visited urls).2) :=
  have h := metrRun_invariant g e urls visited
  ⟨fun u => List.nodup_iff_count_le_one.mp h.1 u, h.2⟩

/-- Claim C1, witness: On a fresh session that has already visited one URL,
running over a duplicate-containing discovery list fetches the visited URL
zero times and the new URL once. -/
theorem metr_at_most_once_fetch_witness :
    ("https://metr.org/blog/a" ∉
      (metrRun (fun _ => (none : Option Unit)) (fun _ _ => (none : Option Unit))
        ["https://metr.org/blog/a"]
        ["https://metr.org/blog/a", "https://metr.org/blog/b",
         "https://metr.org/blog/b"]).2) ∧
    ((metrRun (fun _ => (none : Option Unit)) (fun _ _ => (none : Option Unit))
        ["https://metr.org/blog/a"]
        ["https://metr.org/blog/a", "https://metr.org/blog/b",
         "https://metr.org/blog/b"]).2.count "https://metr.org/blog/b" ≤ 1) :=
  ⟨(metr_at_most_once_fetch _ _ _ _).2 _ (by simp),
   (metr_at_most_once_fetch _ _ _ _).1 _⟩

/-- Claim C3, counterexample: The claim says every adapter's `isContentUrl`
returns false for every query variant of its own listing URL.  The Aisi and
Anthropic predicates both accept such a variant. -/
theorem isContentUrl_accepts_query_variant :
    aisiIsBlogPostUrl "https://www.aisi.gov.uk/work/?page=2" = true ∧
    anthropicIsBlogPostUrl "https://www.anthropic.com/research/?page=2" = true :=
  ⟨rfl, rfl⟩

/-- Claim C3, amended: Each cited adapter rejects its own bare index URL,
with or without trailing slash.  The Metr predicate also rejects
pagination, query, and fragment variants of its listing URL and accepts only
URLs containing the `/blog/` path; but the Aisi and Anthropic predicates
accept some query variants of their listing URLs.  In particular the query
variant `https://metr.org/blog/?page=2` is rejected. -/
theorem isContentUrl_index_vs_content :
    (metrIsBlogPostUrl "https://metr.org/blog" = false ∧
     metrIsBlogPostUrl "https://metr.org/blog/" = false ∧
     metrIsBlogPostUrl "https://metr.org/blog/?page=2" = false ∧
     metrIsBlogPostUrl "https://metr.org/blog/#latest" = false ∧
     metrIsBlogPostUrl "https://metr.org/blog/page/2/" = false ∧
     metrIsBlogPostUrl "https://metr.org/blog/evaluation-report" = true) ∧
    (∀ url, metrIsBlogPostUrl url = true → pyIn "/blog/" url = true) ∧
    (aisiIsBlogPostUrl "https://www.aisi.gov.uk/work" = false ∧
     aisiIsBlogPostUrl "https://www.aisi.gov.uk/work/" = false ∧
     aisiIsBlogPostUrl "https://www.aisi.gov.uk/work/frontier-safety" = true ∧
     aisiIsBlogPostUrl "https://www.aisi.gov.uk/work/?page=2" = true) ∧
    (anthropicIsBlogPostUrl "https://www.anthropic.com/research" = false ∧
     anthropicIsBlogPostUrl "https://www.anthropic.com/research/" = false ∧
     anthropicIsBlogPostUrl "https://www.anthropic.com/news" = false ∧
     anthropicIsBlogPostUrl "https://www.anthropic.com/research/interp" = true ∧
     anthropicIsBlogPostUrl "https://www.anthropic.com/research/?page=2" = true) := by
  refine ⟨⟨rfl, rfl, rfl, rfl, rfl, rfl⟩, fun url h => ?_,
    ⟨rfl, rfl, rfl, rfl⟩, ⟨rfl, rfl, rfl, rfl, rfl⟩⟩
  unfold metrIsBlogPostUrl at h
  split at h
  · exact absurd h (by simp)
  · split at h
    · exact absurd h (by simp)
    · exact h

/-- Claim C3, witness: A concrete instance of the universal clause: the
accepted Metr content URL does contain the `/blog/` path. -/
theorem isContentUrl_index_vs_content_witness :
    pyIn "/blog/" "https://metr.org/blog/evaluation-report" = true :=
  isContentUrl_index_vs_content.2.1 "https://metr.org/blog/evaluation-report" rfl

/-- Claim C4: Rendering a link node with `resolveLinks = true`: when the
`href` attribute and the trimmed text are both non-empty, the rendering is
`[text](absoluteURL)` with the target resolved against the base URL; when
the href is absent or empty, or the text is empty, the bare text (possibly
the empty string) is rendered instead.  Concretely, with base
`https://x.org/blog/`, href `../about` and text `About`, the rendering is
`[About](https://x.org/about)`. -/
theorem link_rendering_resolves_href :
    (∀ (base : String) (attrs : List (String × String)) (cs : List Node) (href : String),
      getAttr "href" (.elem "a" attrs cs) = some href →
      (href ≠ "" → pyGetTextStrip (.elem "a" attrs cs) ≠ "" →
        extractTextContent base true (.elem "a" attrs cs) =
          some ("[" ++ pyGetTextStrip (.elem "a" attrs cs) ++ "](" ++
            urljoin base href ++ ")")) ∧
      (href = "" ∨ pyGetTextStrip (.elem "a" attrs cs) = "" →
        extractTextContent base true (.elem "a" attrs cs) =
          some (pyGetTextStrip (.elem "a" attrs cs)))) ∧
    (∀ (base : String) (attrs : List (String × String)) (cs : List Node),
      getAttr "href" (.elem "a" attrs cs) = none →
      extractTextContent base true (.elem "a" attrs cs) =
        some (pyGetTextStrip (.elem "a" attrs cs))) ∧
    extractTextContent "https://x.org/blog/" true
      (.elem "a" [("href", "../about")] [.text "About"]) =
      some "[About](https://x.org/about)" := by
  refine ⟨fun base attrs cs href hhref => ⟨fun h1 h2 => ?_, fun h12 => ?_⟩,
    fun base attrs cs hhref => ?_, rfl⟩
  · simp [extractTextContent, hhref, h1, h2]
  · rcases h12 with h | h <;> simp [extractTextContent, hhref, h]
  · simp [extractTextContent, hhref]

/-- Claim C4, witness: The universal link rule applied at the concrete
`../about` example. -/
theorem link_rendering_resolves_href_witness :
    extractTextContent "https://x.org/blog/" true
      (.elem "a" [("href", "../about")] [.text "About"]) =
      some ("[" ++ pyGetTextStrip (.elem "a" [("href", "../about")] [.text "About"]) ++
        "](" ++ urljoin "https://x.org/blog/" "../about" ++ ")") :=
  (link_rendering_resolves_href.1 "https://x.org/blog/" [("href", "../about")]
    [.text "About"] "../about" rfl).1 (by decide) (by decide)

/-- Claim C9: `scrape_blog_post` marks a URL visited before fetching, so a URL
whose first fetch fails stays in the visited set: for both the Metr adapter
and `AisiScraper.scrape_article`, the failing call returns null but records
the URL, and a second call on the same URL in the same session returns null
without issuing another fetch. -/
theorem failed_fetch_never_retried {Page Rec : Type} (g : String → Option Page)
    (e : String → Page → Option Rec) (visited : List String) (url : String)
    (hv : visited.contains url = false) (hg : g url = none) :
    (metrIsBlogPostUrl url = true →
      metrScrapeBlogPost g e visited url = (url :: visited, true, none) ∧
      metrScrapeBlogPost g e (url :: visited) url = (url :: visited, false, none)) ∧
    (aisiScrapeArticle g e visited url = (url :: visited, true, none) ∧
     aisiScrapeArticle g e (url :: visited) url = (url :: visited, false, none)) := by
  have h : url ∉ visited := by simpa using hv
  refine ⟨fun hb => ?_, ?_⟩ <;>
    simp [metrScrapeBlogPost, aisiScrapeArticle, h, hg, *]

/-- Claim C9, witness: A concrete failing fetch on a fresh Metr session:
the URL is recorded, the record is null, and the retry does not fetch. -/
theorem failed_fetch_never_retried_witness :
    metrScrapeBlogPost (fun _ => (none : Option Unit))
      (fun _ _ => (none : Option Unit)) [] "https://metr.org/blog/a"
      = (["https://metr.org/blog/a"], true, none) ∧
    metrScrapeBlogPost (fun _ => (none : Option Unit))
      (fun _ _ => (none : Option Unit)) ["https://metr.org/blog/a"]
      "https://metr.org/blog/a" = (["https://metr.org/blog/a"], false, none) :=
  (failed_fetch_never_retried (fun _ => (none : Option Unit))
    (fun _ _ => (none : Option Unit)) [] "https://metr.org/blog/a"
    (by decide) rfl).1 (by decide)

/-- Invariant of the `content_elements` accumulation loop of
`MetrScraper.scrape_blog_post`: starting from a duplicate-free accumulator,
the loop appends a duplicate-free sequence of new fragments, each non-empty
and absent from the starting accumulator, in document order (a sublist of
the kept elements' renderings). -/
theorem metrBlogFrags_go (base : String) :
    ∀ (els : List Node) (acc : List String), acc.Nodup →
      ∃ new, els.foldl (metrBlogFragsStep base) acc = acc ++ new ∧
        new.Sublist (els.filterMap (metrRenderOf base)) ∧
        (∀ t ∈ new, t ∉ acc ∧ t ≠ "") ∧ (acc ++ new).Nodup := by
  intro els
  induction els with
  | nil => intro acc h; exact ⟨[], by simp, by simp, by simp, by simpa⟩
  | cons e els ih =>
    intro acc hacc
    by_cases hs : metrClassSkip e = true
    · obtain ⟨new, h1, h2, h3, h4⟩ := ih acc hacc
      refine ⟨new, ?_, ?_, h3, h4⟩
      · simpa [metrBlogFragsStep, hs] using h1
      · cases hr : metrRenderOf base e with
        | none => simpa [hr] using h2
        | some r => simpa [hr] using h2.cons r
    · have hs' : metrClassSkip e = false := by simpa using hs
      cases hex : extractTextContent base true e with
      | none =>
        obtain ⟨new, h1, h2, h3, h4⟩ := ih acc hacc
        refine ⟨new, ?_, ?_, h3, h4⟩
        · simpa [metrBlogFragsStep, hs', hex] using h1
        · simpa [metrRenderOf, hs', hex] using h2
      | some t =>
        by_cases hk : (t != "" && !(acc.contains t)) = true
        · have ht : t ≠ "" := by
            rcases Bool.and_eq_true .. |>.mp hk with ⟨h5, _⟩
            simpa using h5
          have hmem : t ∉ acc := by
            rcases Bool.and_eq_true .. |>.mp hk with ⟨_, h6⟩
            simpa using h6
          have hacc' : (acc ++ [t]).Nodup := by
            simp [List.nodup_append, hacc, hmem]
          obtain ⟨new, h1, h2, h3, h4⟩ := ih (acc ++ [t]) hacc'
          refine ⟨t :: new, ?_, ?_, ?_, ?_⟩
          · rw [show (e :: els).foldl (metrBlogFragsStep base) acc
                = els.foldl (metrBlogFragsStep base) (acc ++ [t]) by
                simp [metrBlogFragsStep, hs', hex, ht, hmem]]
            simpa using h1
          · have : (e :: els).filterMap (metrRenderOf base)
                = t :: els.filterMap (metrRenderOf base) := by
              simp [metrRenderOf, hs', hex]
            rw [this]
            exact h2.cons₂ t
          · intro s hsmem
            rcases List.mem_cons.mp hsmem with h | h
            · exact h ▸ ⟨hmem, ht⟩
            · have := h3 s h
              exact ⟨fun hin => this.1 (by simp [hin]), this.2⟩
          · have : acc ++ t :: new = (acc ++ [t]) ++ new := by simp
            rw [this]; exact h4
        · have hcond : t = "" ∨ t ∈ acc := by
            have := hk
            by_cases h5 : t = ""
            · exact Or.inl h5
            · right
              by_cases h6 : t ∈ acc
              · exact h6
              · exact absurd (by simp [h5, h6] : (t != "" && !acc.contains t) = true) hk
          obtain ⟨new, h1, h2, h3, h4⟩ := ih acc hacc
          refine ⟨new, ?_, ?_, h3, h4⟩
          · rcases hcond with h | h <;> simpa [metrBlogFragsStep, hs', hex, h] using h1
          · have : (e :: els).filterMap (metrRenderOf base)
                = t :: els.filterMap (metrRenderOf base) := by
              simp [metrRenderOf, hs', hex]
            rw [this]
            exact h2.cons t

/-- Claim C5, counterexample: The claim says every page's content assembler
skips fragments already emitted for that page.  The home-page assembler
(`MetrScraper.scrape_home_page`) does not: a container with two paragraphs
rendering the same text emits the text twice, while the blog-post assembler
over the same container emits it once. -/
theorem metrHome_no_duplicate_suppression :
    metrHomeContent "https://metr.org" twoEqualParas = some "A\n\nA" ∧
    metrBlogContent "https://metr.org" twoEqualParas = "A" ∧
    ("A\n\nA" : String) ≠ "A" :=
  ⟨rfl, rfl, by decide⟩

/-- Claim C5, amended: The blog-post record assembler iterates the content
container's structural elements in document order, skips class-excluded
elements and elements whose rendering is `None` or empty or already emitted
for this page (the suppression list is created fresh per record), and joins
the kept fragments with a blank line; the home/about assembler performs no
such suppression. -/
theorem blog_content_duplicate_suppression (base : String) (container : Node) :
    metrBlogContent base container =
      String.intercalate "\n\n" (metrBlogFrags base (findAll metrBlogTags container)) ∧
    (metrBlogFrags base (findAll metrBlogTags container)).Nodup ∧
    (∀ t ∈ metrBlogFrags base (findAll metrBlogTags container), t ≠ "") ∧
    (metrBlogFrags base (findAll metrBlogTags container)).Sublist
      ((findAll metrBlogTags container).filterMap (metrRenderOf base)) := by
  obtain ⟨new, h1, h2, h3, h4⟩ :=
    metrBlogFrags_go base (findAll metrBlogTags container) [] (by simp)
  have hfr : metrBlogFrags base (findAll metrBlogTags container) = new := by
    simpa [metrBlogFrags] using h1
  refine ⟨rfl, ?_, ?_, ?_⟩
  · rw [hfr]; simpa using h4
  · rw [hfr]; exact fun t ht => (h3 t ht).2
  · rw [hfr]; exact h2

/-- Claim C5, witness: The amended suppression guarantee applied to the
two-equal-paragraph container: the single kept fragment is non-empty. -/
theorem blog_content_duplicate_suppression_witness :
    "A" ∈ metrBlogFrags "https://metr.org" (findAll metrBlogTags twoEqualParas) ∧
    ("A" : String) ≠ "" :=
  ⟨by decide,
   (blog_content_duplicate_suppression "https://metr.org" twoEqualParas).2.2.1
     "A" (by decide)⟩

/-- Lemma: `find_largest_array` threads its accumulator exactly over the arrays
reachable through dict values, in visiting order. -/
theorem findLA_foldl_pair :
    (∀ (j : Json) (cur : Option (List Json)),
      findLargestArray j cur = (dictArrays j).foldl flaStep cur) ∧
    (∀ (fs : List (String × Json)) (cur : Option (List Json)),
      findLargestArrayFields fs cur = (dictArraysFields fs).foldl flaStep cur) := by
  refine findLargestArray.mutual_induct
    (fun j cur => findLargestArray j cur = (dictArrays j).foldl flaStep cur)
    (fun fs cur => findLargestArrayFields fs cur = (dictArraysFields fs).foldl flaStep cur)
    ?_ ?_ ?_ ?_ ?_ ?_ ?_ ?_ ?_
  · intro xs cur h
    simp [findLargestArray, dictArrays, flaStep, h]
  · intro xs cur h
    simp [findLargestArray, dictArrays, flaStep, h]
  · intro fs cur h
    simp [findLargestArray, dictArrays, h]
  · intro cur; simp [findLargestArray, dictArrays]
  · intro b cur; simp [findLargestArray, dictArrays]
  · intro n cur; simp [findLargestArray, dictArrays]
  · intro s cur; simp [findLargestArray, dictArrays]
  · intro cur; simp [findLargestArrayFields, dictArraysFields]
  · intro k v rest cur h1 h2
    simp only [findLargestArrayFields, dictArraysFields, List.foldl_append]
    rw [h2, h1]

/-- The accumulator's length never decreases along the fold. -/
theorem foldl_flaStep_mono :
    ∀ (l : List (List Json)) (cur : Option (List Json)) (xs c : List Json),
      l.foldl flaStep cur = some xs → cur = some c → c.length ≤ xs.length := by
  intro l
  induction l with
  | nil =>
    intro cur xs c h hc
    simp at h
    rw [hc] at h
    exact (Option.some.inj h) ▸ le_refl _
  | cons y l ih =>
    intro cur xs c h hc
    rw [List.foldl_cons] at h
    by_cases hl : isLongerThan y cur = true
    · have hy : flaStep cur y = some y := by simp [flaStep, hl]
      rw [hy] at h
      have h1 : y.length ≤ xs.length := ih _ _ _ h rfl
      have h2 : c.length < y.length := by
        rw [hc] at hl
        simpa [isLongerThan] using hl
      omega
    · have hy : flaStep cur y = cur := by simp [flaStep, hl]
      rw [hy] at h
      exact ih _ _ _ h hc

/-- A defined fold result is either the starting accumulator or one of the
visited arrays. -/
theorem foldl_flaStep_some_mem :
    ∀ (l : List (List Json)) (cur : Option (List Json)) (xs : List Json),
      l.foldl flaStep cur = some xs → some xs = cur ∨ xs ∈ l := by
  intro l
  induction l with
  | nil => intro cur xs h; simp at h; exact Or.inl h.symm
  | cons y l ih =>
    intro cur xs h
    rw [List.foldl_cons] at h
    rcases ih _ _ h with h1 | h1
    · by_cases hl : isLongerThan y cur = true
      · have : flaStep cur y = some y := by simp [flaStep, hl]
        rw [this] at h1
        exact Or.inr (by simp [Option.some.inj h1])
      · have : flaStep cur y = cur := by simp [flaStep, hl]
        rw [this] at h1
        exact Or.inl h1
    · exact Or.inr (List.mem_cons_of_mem _ h1)

/-- The fold result is at least as long as every visited array. -/
theorem foldl_flaStep_ge_all :
    ∀ (l : List (List Json)) (cur : Option (List Json)) (xs : List Json),
      l.foldl flaStep cur = some xs → ∀ ys ∈ l, ys.length ≤ xs.length := by
  intro l
  induction l with
  | nil => intro cur xs h ys hys; simp at hys
  | cons y l ih =>
    intro cur xs h ys hys
    rw [List.foldl_cons] at h
    rcases List.mem_cons.mp hys with hy | hy
    · subst hy
      by_cases hl : isLongerThan ys cur = true
      · have : flaStep cur ys = some ys := by simp [flaStep, hl]
        rw [this] at h
        exact foldl_flaStep_mono _ _ _ _ h rfl
      · cases cur with
        | none => simp [isLongerThan] at hl
        | some c =>
          have h2 : ys.length ≤ c.length := by
            simpa [isLongerThan] using hl
          have : flaStep (some c) ys = some c := by simp [flaStep, hl]
          rw [this] at h
          have h3 := foldl_flaStep_mono _ _ _ _ h rfl
          omega
    · exact ih _ _ h ys hy

/-- Claim C6, counterexample: The claim says the split utility searches list
elements too, and that a longest array nested inside an element of another
list is selected.  On a document whose 5-element array sits inside a
one-element list, `find_largest_array` selects the one-element containing
list, never the nested array. -/
theorem find_largest_array_misses_nested_array :
    (findLargestArray nestedArrayDoc none).map List.length = some 1 ∧
    big5.length = 5 ∧
    ∀ sel, findLargestArray nestedArrayDoc none = some sel → sel ≠ big5 := by
  refine ⟨rfl, rfl, fun sel h hEq => ?_⟩
  have he : findLargestArray nestedArrayDoc none = some [Json.arr big5] := rfl
  rw [he] at h
  rw [← Option.some.inj h] at hEq
  have := congrArg List.length hEq
  simp [big5] at this

/-- Claim C6, amended: `find_largest_array` locates the longest array among
those reachable depth-first through dict values only: a list encountered is
itself a candidate, but its elements are not searched.  Whenever it returns
an array, that array is one of the dict-reachable candidates and is at
least as long as every such candidate. -/
theorem find_largest_array_dict_maximal :
    ∀ (j : Json) (xs : List Json), findLargestArray j none = some xs →
      xs ∈ dictArrays j ∧ ∀ ys ∈ dictArrays j, ys.length ≤ xs.length := by
  intro j xs h
  rw [findLA_foldl_pair.1] at h
  constructor
  · rcases foldl_flaStep_some_mem _ _ _ h with h1 | h1
    · simp at h1
    · exact h1
  · exact foldl_flaStep_ge_all _ _ _ h

/-- Claim C6, witness: The maximality statement applied to the nested-array
document: the selected one-element list is a dict-reachable candidate and
no dict-reachable candidate is longer. -/
theorem find_largest_array_dict_maximal_witness :
    [Json.arr big5] ∈ dictArrays nestedArrayDoc ∧
    ∀ ys ∈ dictArrays nestedArrayDoc, ys.length ≤ [Json.arr big5].length :=
  find_largest_array_dict_maximal nestedArrayDoc [Json.arr big5] rfl

/-- Replacing the target array touches nothing outside its occurrences:
the source and the rewritten document agree everywhere outside the target. -/
theorem sameOutside_replace (target new : List Json) :
    (∀ j : Json, sameOutside target j (replaceArrayInStructure target new j) = true) ∧
    (∀ fs : List (String × Json),
      sameOutsideFields target fs (replaceArrayFields target new fs) = true) ∧
    (∀ xs : List Json,
      sameOutsideList target xs (replaceArrayList target new xs) = true) := by
  refine replaceArrayInStructure.mutual_induct target new
    (fun j => sameOutside target j (replaceArrayInStructure target new j) = true)
    (fun fs => sameOutsideFields target fs (replaceArrayFields target new fs) = true)
    (fun xs => sameOutsideList target xs (replaceArrayList target new xs) = true)
    ?_ ?_ ?_ ?_ ?_ ?_ ?_ ?_ ?_ ?_ ?_
  · intro xs hb
    simp [replaceArrayInStructure, sameOutside, hb]
  · intro xs hb ih
    have hb' : jsonBeqList xs target = false := by simpa using hb
    simp [replaceArrayInStructure, sameOutside, hb', ih]
  · intro fs ih
    simp [replaceArrayInStructure, sameOutside, ih]
  · simp [replaceArrayInStructure, sameOutside]
  · intro b; simp [replaceArrayInStructure, sameOutside]
  · intro n; simp [replaceArrayInStructure, sameOutside]
  · intro s; simp [replaceArrayInStructure, sameOutside]
  · simp [replaceArrayList, sameOutsideList]
  · intro x xs ih1 ih3
    simp [replaceArrayList, sameOutsideList, ih1, ih3]
  · simp [replaceArrayFields, sameOutsideFields]
  · intro k v rest ih1 ih2
    simp [replaceArrayFields, sameOutsideFields, ih1, ih2]

/-- With a 13-element array and 5 parts, `items_per_part` is 3 and the loop
produces exactly the five contiguous slices at offsets 0, 3, 6, 9, 12. -/
theorem pySplitChunks_13 (arr : List Json) (h : arr.length = 13) :
    pySplitChunks arr 5 =
      [arr.take 3, (arr.drop 3).take 3, (arr.drop 6).take 3,
       (arr.drop 9).take 3, (arr.drop 12).take 3] := by
  unfold pySplitChunks chunkIdxs
  rw [h]
  rfl

/-- Claim C7: Splitting a document whose largest array has 13 items into 5
parts yields contiguous chunks of sizes 3, 3, 3, 3, 1 (ceiling-division
chunking) whose in-order concatenation equals the original array, and each
written part is the source document with the target array replaced by its
chunk — identical to the source everywhere outside the target array. -/
theorem split_13_into_5_round_trip :
    ∀ (data : Json) (arr : List Json),
      findLargestArray data none = some arr → arr.length = 13 →
      ((pySplitChunks arr 5).map List.length = [3, 3, 3, 3, 1]) ∧
      (pySplitChunks arr 5).flatten = arr ∧
      ∃ parts, splitJsonParts data 5 = some parts ∧ parts.length = 5 ∧
        ∀ p ∈ parts, sameOutside arr data p = true := by
  intro data arr hfind h
  have hc := pySplitChunks_13 arr h
  refine ⟨?_, ?_, ?_⟩
  · rw [hc]
    simp [List.length_take, List.length_drop, h]
  · rw [hc]
    have e12 : (arr.drop 12).take 3 = arr.drop 12 :=
      List.take_of_length_le (by simp [h])
    have e9 : (arr.drop 9).take 3 ++ arr.drop 12 = arr.drop 9 := by
      have := List.take_append_drop 3 (arr.drop 9)
      rwa [List.drop_drop] at this
    have e6 : (arr.drop 6).take 3 ++ arr.drop 9 = arr.drop 6 := by
      have := List.take_append_drop 3 (arr.drop 6)
      rwa [List.drop_drop] at this
    have e3 : (arr.drop 3).take 3 ++ arr.drop 6 = arr.drop 3 := by
      have := List.take_append_drop 3 (arr.drop 3)
      rwa [List.drop_drop] at this
    have e0 : arr.take 3 ++ arr.drop 3 = arr := List.take_append_drop 3 arr
    simp only [List.flatten_cons, List.flatten_nil, List.append_nil,
      List.append_assoc]
    rw [e12, e9, e6, e3, e0]
  · refine ⟨(pySplitChunks arr 5).map (fun c => replaceArrayInStructure arr c data),
      ?_, ?_, ?_⟩
    · simp [splitJsonParts, hfind]
    · rw [hc]; rfl
    · intro p hp
      rcases List.mem_map.mp hp with ⟨c, _, hpc⟩
      rw [← hpc]
      exact (sameOutside_replace arr c).1 data

/-- Claim C7, witness: The round-trip applied to a concrete document whose
largest array has 13 elements. -/
theorem split_13_witness :
    (pySplitChunks thirteen 5).map List.length = [3, 3, 3, 3, 1] ∧
    (pySplitChunks thirteen 5).flatten = thirteen :=
  ⟨(split_13_into_5_round_trip doc13 thirteen rfl (by decide)).1,
   (split_13_into_5_round_trip doc13 thirteen rfl (by decide)).2.1⟩

/-- Claim C8: The downstream filter's date cutoff is inclusive: a post whose
recognized date (the first `Mon D, YYYY` pattern in `content`) equals the
fixed cutoff June 1, 2024 is kept, one whose recognized date is earlier
(in particular one day earlier) is dropped, and posts with no recognized
date — or no content — are dropped. -/
theorem filter_cutoff_inclusive :
    (∀ c : String, c ≠ "" → extractDateFromContent c = some anthropicCutoff →
      filterPost (some c) = true) ∧
    (∀ (c : String) (d : Nat × Nat × Nat), extractDateFromContent c = some d →
      dateLe anthropicCutoff d = false → filterPost (some c) = false) ∧
    (∀ c : String, extractDateFromContent c = none → filterPost (some c) = false) ∧
    filterPost none = false ∧
    filterPost (some "Posted Jun 1, 2024") = true ∧
    filterPost (some "Posted May 31, 2024") = false ∧
    filterPost (some "no recognizable date") = false := by
  refine ⟨fun c h0 hd => ?_, fun c d hd hlt => ?_, fun c hd => ?_, rfl, ?_, ?_, ?_⟩
  · simp [filterPost, h0, hd, dateLe, anthropicCutoff]
  · by_cases h0 : c = ""
    · simp [filterPost, h0]
    · simp [filterPost, h0, hd, hlt]
  · by_cases h0 : c = ""
    · simp [filterPost, h0]
    · simp [filterPost, h0, hd]
  · rfl
  · rfl
  · rfl

/-- Claim C8, witness: The inclusive boundary applied at a concrete content
string whose recognized date is exactly the cutoff. -/
theorem filter_cutoff_inclusive_witness :
    filterPost (some "Jun 1, 2024 announcement") = true :=
  filter_cutoff_inclusive.1 _ (by decide) (by rfl)

end Scraper
